import Mathlib

/-!
Shallow embedding of `sos/collector/clusters/__init__.py` (the `Cluster`
base class of sos-collector): option resolution, node-list normalization,
primary-node command execution, detection, and extra-artifact collection.

Python strings are modelled as Lean `String` (a wrapper around `List Char`);
Python string methods (`strip`, `split`, `replace`, `in`, `startswith`) are
re-implemented below over `List Char`, restricted to the ASCII behaviour the
source relies on.  Exceptions are modelled with `Except`; logging calls are
modelled by returning the list of `(severity, message)` pairs a call emits.
-/

namespace Sos

/-! ### Python string primitives -/

/-- The characters Python's `str.strip()` removes (ASCII whitespace). -/
def pySpace (c : Char) : Bool :=
  c == ' ' || c == '\t' || c == '\n' || c == '\r' || c == '\x0b' || c == '\x0c'

/-- `str.strip()` on the underlying character list: drop whitespace from both
ends. -/
def pyStripL (l : List Char) : List Char :=
  (l.dropWhile pySpace).rdropWhile pySpace

/-- Python `s.strip()`. -/
def pyStrip (s : String) : String :=
  ⟨pyStripL s.data⟩

/-- Python `s.split(',')` on the character list: split at every comma.
`"".split(',') == ['']`, matching the aux base case. -/
def pySplitCommaAux (acc : List Char) : List Char → List String
  | [] => [⟨acc.reverse⟩]
  | c :: rest =>
    if c == ',' then ⟨acc.reverse⟩ :: pySplitCommaAux [] rest
    else pySplitCommaAux (c :: acc) rest

/-- Python `s.split(',')`. -/
def pySplitComma (s : String) : List String :=
  pySplitCommaAux [] s.data

/-- Python `pat in s` (substring containment) on character lists. -/
def hasSubL (pat : List Char) : List Char → Bool
  | [] => pat.isEmpty
  | c :: rest => pat.isPrefixOf (c :: rest) || hasSubL pat rest

/-- Python `pat in s` for strings. -/
def hasSubstr (s pat : String) : Bool :=
  hasSubL pat.data s.data

/-- Python `s.replace(pat, rep)` (all occurrences, scanning left to right,
continuing after each replacement).  The `fuel` argument makes the recursion
structural; each step consumes at least one character, so
`fuel = length + 1` always suffices.  (For an empty `pat` this is a no-op,
which the source never exercises.) -/
def pyReplaceL (pat rep : List Char) : Nat → List Char → List Char
  | _, [] => []
  | 0, l => l
  | fuel + 1, c :: rest =>
    if !pat.isEmpty && pat.isPrefixOf (c :: rest) then
      rep ++ pyReplaceL pat rep fuel ((c :: rest).drop pat.length)
    else
      c :: pyReplaceL pat rep fuel rest

/-- Python `s.replace(pat, rep)`. -/
def pyReplace (s pat rep : String) : String :=
  ⟨pyReplaceL pat.data rep.data (s.data.length + 1) s.data⟩

/-! ### Logging and Python runtime errors -/

/-- Log severities used by the `Cluster` methods. -/
inductive Severity where
  | error
  | debug
  | info
  | warn
deriving DecidableEq, Repr

/-- A log line: severity and formatted message. -/
abbrev LogLine := Severity × String

/-- `Cluster._fmt_msg`: `'[%s] %s' % (self.cluster_type[0], msg)`. -/
def _fmt_msg (ct0 msg : String) : String :=
  "[" ++ ct0 ++ "] " ++ msg

/-- The exceptions `format_node_list` can let escape: an exception raised by
`get_nodes()` (re-raised after logging), the `AttributeError` from calling
`.strip()` on the list returned by `n.split(',')` in the string branch, and
the `UnboundLocalError` from reading `node_list` when neither `isinstance`
branch assigned it. -/
inductive PyErr where
  | exc (msg : String)
  | attributeError
  | unboundLocal
deriving DecidableEq, Repr

/-- Python `str(e)` for the modelled exceptions. -/
def errStr : PyErr → String
  | PyErr.exc m => m
  | PyErr.attributeError => "'list' object has no attribute 'strip'"
  | PyErr.unboundLocal => "local variable 'node_list' referenced before assignment"

/-! ### Node enumeration and normalization -/

/-- The values `get_nodes()` can hand to `format_node_list` that the claims
concern: a list of strings, a single string, or `None` (what the unoverridden
base `get_nodes`, whose body is `pass`, returns). -/
inductive RawNodes where
  | list (xs : List String)
  | str (s : String)
  | pyNone
deriving Repr

/-- The base class `get_nodes` (body `pass`): returns `None`. -/
def get_nodes : RawNodes :=
  RawNodes.pyNone

/-- `node.startswith(('-', '_', '(', ')', '[', ']', '/', '\\'))`: every
prefix in the tuple is a single character, so this tests the first
character. -/
def isArtifact (s : String) : Bool :=
  match s.data with
  | [] => false
  | c :: _ => [ '-', '_', '(', ')', '[', ']', '/', '\\' ].contains c

/-- One step of building `list(set(node_list))`: keep the first occurrence of
each string.  (CPython iterates a `set` in an unspecified order; this model
fixes first-occurrence order.  Every claim settled below either holds for any
order or fails for every order.) -/
def pySetInsert (acc : List String) (x : String) : List String :=
  if acc.contains x then acc else acc ++ [x]

/-- `list(set(l))` under the first-occurrence order. -/
def pySetList (l : List String) : List String :=
  l.foldl pySetInsert []

/-- The source's
`for node in node_list: if node.startswith(...): node_list.remove(node)`
loop, with CPython's `list` iterator semantics: the iterator keeps a bare
index, fetches `xs[i]`, and `remove` deletes the first equal element, so a
removal shifts the successor into slot `i` and the next fetch at `i + 1`
skips it.  `fuel` makes the recursion structural; the loop runs at most
`xs.length` iterations (the index grows by one each step and the list never
grows), so `fuel = xs.length` is exact: at `fuel = 0` the index has already
passed the end. -/
def removeLoopFuel : Nat → Nat → List String → List String
  | 0, _, xs => xs
  | fuel + 1, i, xs =>
    if h : i < xs.length then
      if isArtifact (xs.get ⟨i, h⟩) then
        removeLoopFuel fuel (i + 1) (xs.erase (xs.get ⟨i, h⟩))
      else
        removeLoopFuel fuel (i + 1) xs
    else xs

/-- Lines 268-272 of the source: dedup through `set`, then the
remove-while-iterating artifact filter. -/
def finishNodeList (node_list : List String) : List String :=
  let nl := pySetList node_list
  removeLoopFuel nl.length 0 nl

/-- Lines 264-267: the `isinstance` dispatch that assigns `node_list`.
* list: `[n.strip() for n in nodes if n]` — truthiness filter on the raw
  entry, then `strip` of each survivor;
* str: `[n.split(',').strip() for n in nodes]` iterates the *characters* of
  the string, and `n.split(',')` is a list, so evaluating the first element
  raises `AttributeError`; only the empty string (an empty iteration)
  escapes;
* anything else (`None` in particular): neither branch runs and the later
  read of `node_list` raises `UnboundLocalError`. -/
def assignNodeList : RawNodes → Except PyErr (List String)
  | RawNodes.list xs => Except.ok ((xs.filter (fun n => n != "")).map pyStrip)
  | RawNodes.str s =>
    if s.data.isEmpty then Except.ok [] else Except.error PyErr.attributeError
  | RawNodes.pyNone => Except.error PyErr.unboundLocal

/-- `Cluster.format_node_list`.  The argument is the outcome of the
`self.get_nodes()` call: `Except.error msg` when the profile's hook raised.
Returns the emitted log lines and the result (`Except.error` = the method
raises). -/
def format_node_list (g : Except String RawNodes) :
    List LogLine × Except PyErr (List String) :=
  match g with
  | Except.error e =>
    ([(Severity.error, "Cluster failed to enumerate nodes: " ++ e)],
      Except.error (PyErr.exc e))
  | Except.ok nodes =>
    ([],
      match assignNodeList nodes with
      | Except.error e => Except.error e
      | Except.ok node_list => Except.ok (finishNodeList node_list))

/-- `Cluster._get_nodes`: delegate to `format_node_list`, and on any
exception log at debug severity (through `_fmt_msg`, hence the
`cluster_type[0]` argument) and return `[]`. -/
def _get_nodes (ct0 : String) (g : Except String RawNodes) :
    List LogLine × List String :=
  match format_node_list g with
  | (logs, Except.ok xs) => (logs, xs)
  | (logs, Except.error e) =>
    (logs ++ [(Severity.debug, _fmt_msg ct0 ("Failed to get node list: " ++ errStr e))],
      [])

/-- Follows the spec's words (§4.3) for the string branch the source
mis-implements: split the raw string on commas, trim whitespace from each
resulting token, deduplicate, and discard artifact-prefixed tokens. -/
def specNormalizeString (s : String) : List String :=
  pySetList (((pySplitComma s).map pyStrip).filter (fun t => !isArtifact t))

/-! ### Option model and resolution -/

/-- The value carried by a cluster option (bool, int or str). -/
inductive OptVal where
  | bool (b : Bool)
  | int (n : Int)
  | str (s : String)
deriving DecidableEq, Repr

/-- A `--cluster-option` override as parsed from the command line: name, the
profile scope it was declared for, and the value (the spec's
`{name, owning_profile_scope, value}` triple; the parser lives outside this
module). -/
structure CmdLineOption where
  name : String
  cluster : String
  value : OptVal
deriving DecidableEq, Repr

/-- A profile-declared default (an entry of `self.options`, as built by
`_get_options` from the `option_list` triples; only `name` and `value` are
read during resolution). -/
structure ClusterOptionDef where
  name : String
  value : OptVal
deriving DecidableEq, Repr

/-- `Cluster.get_option`: first CLI override whose name matches and whose
declared scope is contained in the querying profile's `cluster_type`; else
the first default with that name; else the sentinel `False`. -/
def get_option (cluster_options : List CmdLineOption)
    (options : List ClusterOptionDef) (cluster_type : List String)
    (option : String) : OptVal :=
  match cluster_options.find?
      (fun o => o.name == option && cluster_type.contains o.cluster) with
  | some o => o.value
  | none =>
    match options.find? (fun o => o.name == option) with
    | some o => o.value
    | none => OptVal.bool false

/-! ### The class hierarchy and `cluster_type` -/

/-- A Python class as `Cluster.__init__` sees it: its `__name__` and its
`__bases__`. -/
inductive PyClass where
  | mk (name : String) (bases : List PyClass)

/-- `cls.__name__`. -/
def PyClass.name : PyClass → String
  | PyClass.mk n _ => n

/-- `cls.__bases__`. -/
def PyClass.bases : PyClass → List PyClass
  | PyClass.mk _ b => b

/-- Lines 64-67: `cluster_type = [self.__class__.__name__]` followed by the
names of the *direct* bases other than `Cluster`. -/
def cluster_type_init (c : PyClass) : List String :=
  c.name :: (c.bases.filter (fun b => b.name != "Cluster")).map PyClass.name

/-- A three-level profile hierarchy used to probe `cluster_type`:
`profC <- profB <- profA <- Cluster`. -/
def clusterBase : PyClass := PyClass.mk "Cluster" []

def profA : PyClass := PyClass.mk "A" [clusterBase]

def profB : PyClass := PyClass.mk "B" [profA]

def profC : PyClass := PyClass.mk "C" [profB]

/-! ### Primary-node command execution -/

/-- The dict `run_command` returns: stdout, stderr, exit status. -/
structure CmdRes where
  stdout : String
  stderr : String
  status : Int
deriving DecidableEq, Repr

/-- `Cluster.exec_primary_cmd`, applied to the result the primary node's
`run_command` produced: when stdout is truthy, strip every literal
`'Password:'` occurrence from it. -/
def exec_primary_cmd (res : CmdRes) : CmdRes :=
  if res.stdout = "" then res
  else { res with stdout := pyReplace res.stdout "Password:" "" }

/-! ### Detection -/

/-- `Cluster.check_enabled`: return `True` on the first declared package the
primary node reports installed, `False` when none is. -/
def check_enabled (is_installed : String → Bool) : List String → Bool
  | [] => false
  | pkg :: pkgs => if is_installed pkg then true else check_enabled is_installed pkgs

/-! ### Extra artifact collection -/

/-- What a concrete profile's `run_extra_cmd()` may return (the shapes the
claims concern): `None`, a single path, or a list of paths. -/
inductive ExtraRes where
  | pyNone
  | str (s : String)
  | list (xs : List String)
deriving Repr

/-- Python truthiness of a `run_extra_cmd` result. -/
def extraTruthy : ExtraRes → Bool
  | ExtraRes.pyNone => false
  | ExtraRes.str s => s != ""
  | ExtraRes.list xs => xs != []

/-- `if not isinstance(res, list): res = [res]`. -/
def extraAsList : ExtraRes → List String
  | ExtraRes.pyNone => []
  | ExtraRes.str s => [s]
  | ExtraRes.list xs => xs

/-- The body of the collection loop: strip the path (the source reassigns
`extra_file = extra_file.strip()`), append it, and append `<path>.md5` when
the stripped path mentions `sosreport`. -/
def extraStep (files : List String) (extra_file : String) : List String :=
  if hasSubstr (pyStrip extra_file) "sosreport" then
    files ++ [pyStrip extra_file] ++ [pyStrip extra_file ++ ".md5"]
  else files ++ [pyStrip extra_file]

/-- `Cluster._run_extra_cmd`.  `none` models a profile that does not
implement the optional `run_extra_cmd` hook (the `self.run_extra_cmd()`
attribute lookup raises `AttributeError`, which the method absorbs). -/
def _run_extra_cmd (hook : Option ExtraRes) : List String :=
  match hook with
  | none => []
  | some res =>
    if extraTruthy res then (extraAsList res).foldl extraStep []
    else []

/-! ### Helper lemmas -/

/-- The remove-while-iterating loop only ever deletes elements: its result is
a sublist of its input, whatever the fuel and start index. -/
theorem removeLoopFuel_sublist (fuel : Nat) :
    ∀ (i : Nat) (xs : List String), List.Sublist (removeLoopFuel fuel i xs) xs := by
  induction fuel with
  | zero =>
    intro i xs
    exact List.Sublist.refl xs
  | succ fuel ih =>
    intro i xs
    rw [removeLoopFuel]
    split
    · split
      · exact (ih (i + 1) _).trans (List.erase_sublist _ _)
      · exact ih (i + 1) xs
    · exact List.Sublist.refl xs

/-- Folding `pySetInsert` preserves `Nodup` of the accumulator. -/
theorem pySetList_go_nodup :
    ∀ (l acc : List String), acc.Nodup → (l.foldl pySetInsert acc).Nodup := by
  intro l
  induction l with
  | nil =>
    intro acc h
    simpa using h
  | cons x xs ih =>
    intro acc h
    rw [List.foldl_cons]
    apply ih
    unfold pySetInsert
    split
    · exact h
    · rename_i hc
      refine List.nodup_append.mpr ⟨h, List.nodup_singleton x, ?_⟩
      rw [List.disjoint_singleton]
      intro hmem
      exact hc (by simpa [List.contains] using hmem)

/-- `list(set(l))` has no duplicate entries. -/
theorem pySetList_nodup (l : List String) : (pySetList l).Nodup :=
  pySetList_go_nodup l [] List.nodup_nil

/-- Everything in the fold of `pySetInsert` came from the accumulator or the
input. -/
theorem mem_pySetList_go :
    ∀ (l acc : List String) (a : String),
      a ∈ l.foldl pySetInsert acc → a ∈ acc ∨ a ∈ l := by
  intro l
  induction l with
  | nil =>
    intro acc a h
    exact Or.inl (by simpa using h)
  | cons x xs ih =>
    intro acc a h
    rw [List.foldl_cons] at h
    rcases ih _ a h with hacc | hxs
    · unfold pySetInsert at hacc
      split at hacc
      · exact Or.inl hacc
      · rcases List.mem_append.mp hacc with h1 | h1
        · exact Or.inl h1
        · simp only [List.mem_singleton] at h1
          exact Or.inr (by simp [h1])
    · exact Or.inr (List.mem_cons_of_mem x hxs)

/-- `list(set(l))` draws its entries from `l`. -/
theorem mem_pySetList {l : List String} {a : String} (h : a ∈ pySetList l) :
    a ∈ l := by
  rcases mem_pySetList_go l [] a h with h1 | h1
  · exact absurd h1 (List.not_mem_nil a)
  · exact h1

/-- If a list has no leading whitespace-like run (`dropWhile` fixes it),
removing a trailing run (`rdropWhile`) keeps that property. -/
theorem dropWhile_rdropWhile_of (p : Char → Bool) (l : List Char)
    (hl : l.dropWhile p = l) :
    (l.rdropWhile p).dropWhile p = l.rdropWhile p := by
  obtain ⟨t, ht⟩ := List.rdropWhile_prefix p l
  cases hR : l.rdropWhile p with
  | nil => simp
  | cons r R =>
    rw [List.dropWhile_cons]
    have hr : ¬p r = true := by
      rw [hR] at ht
      rw [← ht, List.cons_append, List.dropWhile_cons] at hl
      intro hp
      rw [if_pos hp] at hl
      have hlen := congrArg List.length hl
      have hle : (List.dropWhile p (R ++ t)).length ≤ (R ++ t).length :=
        (List.dropWhile_sublist p).length_le
      simp only [List.length_cons] at hlen
      omega
    rw [if_neg hr]

/-- Stripping both ends of whitespace is idempotent. -/
theorem pyStripL_idem (l : List Char) : pyStripL (pyStripL l) = pyStripL l := by
  unfold pyStripL
  rw [dropWhile_rdropWhile_of pySpace (l.dropWhile pySpace)
      (List.dropWhile_idempotent pySpace l),
    List.rdropWhile_idempotent]

/-- Python `strip` is idempotent. -/
theorem pyStrip_idem (s : String) : pyStrip (pyStrip s) = pyStrip s :=
  congrArg String.mk (pyStripL_idem s.data)

/-- The collection loop of `_run_extra_cmd`, written as one pass that emits
each stripped path followed, for `sosreport` paths, by its `.md5` sibling. -/
theorem foldl_extraStep_eq (xs : List String) :
    ∀ acc : List String,
      xs.foldl extraStep acc
        = acc ++ xs.foldr (fun f r =>
            (if hasSubstr (pyStrip f) "sosreport"
              then [pyStrip f, pyStrip f ++ ".md5"] else [pyStrip f]) ++ r) [] := by
  induction xs with
  | nil =>
    intro acc
    simp
  | cons f fs ih =>
    intro acc
    rw [List.foldl_cons, List.foldr_cons, ih]
    unfold extraStep
    split
    · simp
    · simp

/-! ### The claims -/

/-- C1: the spec (and the source's own docstring) call for the string branch
to split on commas and then trim each token, so that `"  a , b,b , -x"`
normalizes to `{"a", "b"}`; the code instead calls `.strip()` on the list
`n.split(',')` produces and raises `AttributeError` on any non-empty string.
The second conjunct checks the spec-intended semantics on the same input. -/
theorem format_node_list_string_branch_raises :
    format_node_list (Except.ok (RawNodes.str "  a , b,b , -x"))
      = ([], Except.error PyErr.attributeError)
  ∧ specNormalizeString "  a , b,b , -x" = ["a", "b"] :=
  ⟨rfl, rfl⟩

/-- C2: the claim says every token starting with an artifact character is
absent from the result; on `get_nodes()` returning `["-a", "-b"]` the
remove-while-iterating filter deletes `"-a"` and the iterator then skips
`"-b"`, which survives into the returned list even though it starts with
`'-'`.  (Under CPython's other possible set ordering `"-a"` survives
instead; a `-`-prefixed token remains either way.) -/
theorem format_node_list_artifact_filter_skips :
    (format_node_list (Except.ok (RawNodes.list ["-a", "-b"]))).2 = Except.ok ["-b"]
  ∧ isArtifact "-b" = true :=
  ⟨rfl, rfl⟩

/-- C3 (counterexample): a whitespace-only raw entry is truthy, so it passes
the `if n` filter and strips to the empty string: the returned list contains
an empty entry, contrary to the claim. -/
theorem format_node_list_whitespace_entry :
    format_node_list (Except.ok (RawNodes.list ["  "])) = ([], Except.ok [""]) :=
  rfl

/-- C3 (amended): for a sequence of strings the result has no duplicate
entries, every entry is a stripped non-empty raw entry (raw-empty entries are
discarded; whitespace-only raw entries survive as the empty string), and no
two entries differ only by surrounding whitespace. -/
theorem format_node_list_list_normalizes (xs : List String) :
    ∃ out, (format_node_list (Except.ok (RawNodes.list xs))).2 = Except.ok out
      ∧ out.Nodup
      ∧ (∀ e ∈ out, ∃ r, r ∈ xs ∧ r ≠ "" ∧ e = pyStrip r)
      ∧ (∀ e1 ∈ out, ∀ e2 ∈ out, pyStrip e1 = pyStrip e2 → e1 = e2) := by
  refine ⟨finishNodeList ((xs.filter (fun n => n != "")).map pyStrip), rfl, ?_, ?_, ?_⟩
  case _ =>
    exact ((removeLoopFuel_sublist _ 0 _).nodup
      (pySetList_nodup ((xs.filter (fun n => n != "")).map pyStrip)))
  all_goals {
    have horigin : ∀ e ∈ finishNodeList ((xs.filter (fun n => n != "")).map pyStrip),
        ∃ r, r ∈ xs ∧ r ≠ "" ∧ e = pyStrip r := by
      intro e he
      have h1 : e ∈ pySetList ((xs.filter (fun n => n != "")).map pyStrip) :=
        (removeLoopFuel_sublist _ 0 _).subset he
      have h2 : e ∈ (xs.filter (fun n => n != "")).map pyStrip := mem_pySetList h1
      rw [List.mem_map] at h2
      obtain ⟨r, hr, he2⟩ := h2
      rw [List.mem_filter] at hr
      exact ⟨r, hr.1, by simpa using hr.2, he2.symm⟩
    first
    | exact horigin
    | {
      intro e1 h1 e2 h2 heq
      obtain ⟨r1, _, _, he1⟩ := horigin e1 h1
      obtain ⟨r2, _, _, he2⟩ := horigin e2 h2
      have k1 : pyStrip e1 = e1 := by rw [he1, pyStrip_idem]
      have k2 : pyStrip e2 = e2 := by rw [he2, pyStrip_idem]
      rw [← k1, ← k2, heq]
    }
  }

/-- C4: `get_option` returns a CLI override whose name matches and whose
declared scope lies in the querying profile's type chain, in preference to
the profile's own default; when no CLI override is visible in this chain it
falls back to the first default with that name; and when neither matches it
returns the sentinel `False` (never an exception: the function is total). -/
theorem get_option_resolution (cli : List CmdLineOption)
    (defaults : List ClusterOptionDef) (chain : List String) (optname : String) :
    (∀ o : CmdLineOption,
        cli.find? (fun o => o.name == optname && chain.contains o.cluster) = some o →
          get_option cli defaults chain optname = o.value)
  ∧ ((∀ o ∈ cli, o.name = optname → o.cluster ∉ chain) →
      (∀ d : ClusterOptionDef,
          defaults.find? (fun d => d.name == optname) = some d →
            get_option cli defaults chain optname = d.value)
      ∧ ((∀ d ∈ defaults, d.name ≠ optname) →
          get_option cli defaults chain optname = OptVal.bool false)) := by
  constructor
  · intro o h
    unfold get_option
    rw [h]
  · intro hnone
    have hfind : cli.find?
        (fun o => o.name == optname && chain.contains o.cluster) = none := by
      rw [List.find?_eq_none]
      intro o ho
      simp only [Bool.and_eq_true, beq_iff_eq, List.contains, List.elem_eq_mem,
        decide_eq_true_eq, not_and]
      intro h1 h2
      exact hnone o ho h1 h2
    constructor
    · intro d hd
      unfold get_option
      rw [hfind, hd]
    · intro hnod
      have hfind2 : defaults.find? (fun d => d.name == optname) = none := by
        rw [List.find?_eq_none]
        intro d hd
        simpa using hnod d hd
      unfold get_option
      rw [hfind, hfind2]

/-- C4 witness: a `timeout` override scoped to `Pacemaker` wins over the
default for a profile whose chain contains `Pacemaker`; a `Kubernetes`
sibling gets its own default; with no default either, the sentinel. -/
theorem get_option_resolution_witness :
    get_option [⟨"timeout", "Pacemaker", OptVal.int 30⟩] [⟨"timeout", OptVal.int 60⟩]
        ["Pacemaker"] "timeout" = OptVal.int 30
  ∧ get_option [⟨"timeout", "Pacemaker", OptVal.int 30⟩] [⟨"timeout", OptVal.int 60⟩]
        ["Kubernetes"] "timeout" = OptVal.int 60
  ∧ get_option [⟨"timeout", "Pacemaker", OptVal.int 30⟩] [] ["Kubernetes"] "timeout"
      = OptVal.bool false :=
  ⟨(get_option_resolution _ _ _ _).1 ⟨"timeout", "Pacemaker", OptVal.int 30⟩ (by decide),
   ((get_option_resolution _ _ _ _).2 (by decide)).1 ⟨"timeout", OptVal.int 60⟩ (by decide),
   ((get_option_resolution _ _ _ _).2 (by decide)).2 (by decide)⟩

/-- C5 (counterexample): on stdout exactly `"Password: secretvalue"` the
post-processed stdout is not `"secretvalue"`: only the literal `"Password:"`
text is removed, so the space after the colon remains. -/
theorem exec_primary_cmd_literal_example_refuted :
    (exec_primary_cmd ⟨"Password: secretvalue", "", 0⟩).stdout ≠ "secretvalue" := by
  decide

/-- C5 (amended): whenever the primary node's `run_command` result carries
stdout `"Password: secretvalue"`, `exec_primary_cmd` removes the literal
`"Password:"` text and returns stdout `" secretvalue"` (the space after the
prompt remains), leaving stderr and the exit status untouched. -/
theorem exec_primary_cmd_password_strip (res : CmdRes)
    (h : res.stdout = "Password: secretvalue") :
    exec_primary_cmd res = ⟨" secretvalue", res.stderr, res.status⟩ := by
  obtain ⟨so, se, st⟩ := res
  have h2 : so = "Password: secretvalue" := h
  subst h2
  rfl

/-- C5 witness: the amended statement at a concrete command result. -/
theorem exec_primary_cmd_password_strip_witness :
    exec_primary_cmd ⟨"Password: secretvalue", "err", 5⟩ = ⟨" secretvalue", "err", 5⟩ :=
  exec_primary_cmd_password_strip ⟨"Password: secretvalue", "err", 5⟩ rfl

/-- C6: when `get_nodes()` raises, `format_node_list` logs the failure at
error severity and re-raises the same exception, while `_get_nodes` catches
it, additionally logs at debug severity, and returns the empty list instead
of raising. -/
theorem enumeration_failure_semantics (emsg ct0 : String) :
    format_node_list (Except.error emsg)
      = ([(Severity.error, "Cluster failed to enumerate nodes: " ++ emsg)],
          Except.error (PyErr.exc emsg))
  ∧ _get_nodes ct0 (Except.error emsg)
      = ([(Severity.error, "Cluster failed to enumerate nodes: " ++ emsg),
          (Severity.debug, _fmt_msg ct0 ("Failed to get node list: " ++ emsg))],
          []) :=
  ⟨rfl, rfl⟩

/-- C7: `_run_extra_cmd` returns `[]` when the hook is unimplemented; a
single non-empty path is treated exactly as the one-element list; in general
each returned path is stripped and emitted, immediately followed by its
`.md5` sibling when it mentions `sosreport`; and the spec's example holds. -/
theorem run_extra_cmd_wrapping :
    _run_extra_cmd none = []
  ∧ (∀ s : String, s ≠ "" →
      _run_extra_cmd (some (ExtraRes.str s)) = _run_extra_cmd (some (ExtraRes.list [s])))
  ∧ (∀ xs : List String, xs ≠ [] →
      _run_extra_cmd (some (ExtraRes.list xs))
        = xs.foldr (fun f r =>
            (if hasSubstr (pyStrip f) "sosreport"
              then [pyStrip f, pyStrip f ++ ".md5"] else [pyStrip f]) ++ r) [])
  ∧ _run_extra_cmd (some (ExtraRes.str "sosreport-db.tar"))
      = ["sosreport-db.tar", "sosreport-db.tar.md5"] := by
  refine ⟨rfl, ?_, ?_, rfl⟩
  · intro s hs
    show (if (s != "") = true then List.foldl extraStep [] [s] else [])
        = (if ([s] != []) = true then List.foldl extraStep [] [s] else [])
    rw [if_pos (by simpa using hs)]
    rfl
  · intro xs hxs
    show (if (xs != []) = true then List.foldl extraStep [] xs else []) = _
    rw [if_pos (by simpa using hxs), foldl_extraStep_eq]
    simp

/-- C8 (counterexample): in the hierarchy `profC <- profB <- profA <-
Cluster`, the constructed `cluster_type` is `["C", "B"]`: the grandancestor
profile `profA` is an ancestor profile class (it is a base of `profB`), yet
its name is missing from the chain, so the chain is not "every ancestor
profile class". -/
theorem cluster_type_grandancestor :
    cluster_type_init profC = ["C", "B"]
  ∧ profB ∈ PyClass.bases profC
  ∧ profA ∈ PyClass.bases profB
  ∧ PyClass.name profA = "A"
  ∧ PyClass.name profA ≠ "Cluster"
  ∧ "A" ∉ cluster_type_init profC := by
  refine ⟨rfl, ?_, ?_, rfl, by decide, by decide⟩
  · show profB ∈ [profB]
    exact List.mem_singleton.mpr rfl
  · show profA ∈ [profA]
    exact List.mem_singleton.mpr rfl

/-- C8 (amended): the type chain built at construction is the concrete
class's name followed by the names of its *direct* bases other than
`Cluster`; an option scoped to such a direct base is therefore visible to
the subclass through `get_option` (grandancestors are not included, as the
counterexample shows). -/
theorem cluster_type_direct_base_visibility (c b : PyClass)
    (hb : b ∈ PyClass.bases c) (hn : PyClass.name b ≠ "Cluster")
    (optname : String) (v : OptVal) :
    PyClass.name b ∈ cluster_type_init c
  ∧ get_option [⟨optname, PyClass.name b, v⟩] [] (cluster_type_init c) optname = v := by
  have hmem : PyClass.name b ∈ cluster_type_init c := by
    unfold cluster_type_init
    exact List.mem_cons_of_mem _
      (List.mem_map_of_mem PyClass.name (List.mem_filter.mpr ⟨hb, by simpa using hn⟩))
  refine ⟨hmem, ?_⟩
  unfold get_option
  have hd : decide (PyClass.name b ∈ cluster_type_init c) = true :=
    decide_eq_true hmem
  simp [List.find?, hd]

/-- C8 witness: the amended statement at the concrete hierarchy, for an
option scoped to the direct base `profB`. -/
theorem cluster_type_direct_base_visibility_witness :
    PyClass.name profB ∈ cluster_type_init profC
  ∧ get_option [⟨"opt", PyClass.name profB, OptVal.int 1⟩] [] (cluster_type_init profC)
      "opt" = OptVal.int 1 :=
  cluster_type_direct_base_visibility profC profB
    (by show profB ∈ [profB]; exact List.mem_singleton.mpr rfl) (by decide)
    "opt" (OptVal.int 1)

/-- C9: the default `check_enabled` returns `True` exactly when at least one
declared candidate package is reported installed on the primary node. -/
theorem check_enabled_iff_installed (is_installed : String → Bool)
    (packages : List String) :
    check_enabled is_installed packages = true
      ↔ ∃ pkg, pkg ∈ packages ∧ is_installed pkg = true := by
  induction packages with
  | nil => simp [check_enabled]
  | cons p ps ih =>
    unfold check_enabled
    by_cases hp : is_installed p = true
    · simp only [hp, if_true, true_iff]
      exact ⟨p, List.mem_cons_self p ps, hp⟩
    · simp only [hp, if_false, Bool.false_eq_true]
      rw [ih]
      constructor
      · rintro ⟨q, hq, hiq⟩
        exact ⟨q, List.mem_cons_of_mem _ hq, hiq⟩
      · rintro ⟨q, hq, hiq⟩
        rcases List.mem_cons.mp hq with rfl | hq2
        · exact absurd hiq hp
        · exact ⟨q, hq2, hiq⟩

/-- C10: the unoverridden base `get_nodes` returns `None`, which matches
neither `isinstance` branch of `format_node_list`, so `node_list` is never
assigned and the later read raises `UnboundLocalError`: the method raises
instead of returning a node list. -/
theorem format_node_list_default_get_nodes_unbound :
    format_node_list (Except.ok get_nodes) = ([], Except.error PyErr.unboundLocal) :=
  rfl

end Sos
